import Mathlib

/-!
Verification of the Document-App repository: the document ingestion and
chunking pipeline, the prompt assembler, and the resilient generation-client
wrapper with its retry and circuit-breaker logic.

Shallow embedding conventions:
* JS strings handled character by character (the extracted text, prompts) are
  `List Char`; strings only inspected through substring matching
  (`String.prototype.includes`) stay `String`.
* `Math.floor` on non-negative numbers is `Nat` division; `Math.round(x / 1000)`
  on a non-negative integer x is `(x + 500) / 1000`.
* JS millisecond durations with `Math.random()` jitter are `Rat`.
* The Mongo document store for one owner is a `List StoredDoc`; the backend
  generation service is an oracle `Nat -> Outcome` giving each attempt's result,
  with `Nat -> Nat` timestamps and `Nat -> Rat` jitter draws.
-/

def CHUNK_SIZE : Nat := 1200

structure Source where
  filename : String
  page : Nat
  start : Nat
  stop : Nat
deriving Repr, DecidableEq

structure Chunk where
  text : List Char
  source : Source
deriving Repr, DecidableEq

def chunkAt (text : List Char) (filename : String) (i : Nat) : Chunk :=
  { text := (text.drop i).take (min (i + CHUNK_SIZE) text.length - i),
    source := { filename := filename, page := i / 5 / 300 + 1, start := i,
                stop := min (i + CHUNK_SIZE) text.length } }

def chunkGo (text : List Char) (filename : String) (i : Nat) : List Chunk :=
  if i < text.length then
    chunkAt text filename i :: chunkGo text filename (min (i + CHUNK_SIZE) text.length)
  else []
termination_by text.length - i
decreasing_by
  simp only [CHUNK_SIZE]
  omega

def chunkText (text : List Char) (filename : String) : List Chunk :=
  chunkGo text filename 0

def isPrefixOfL : List Char → List Char → Bool
  | [], _ => true
  | _ :: _, [] => false
  | a :: as, b :: bs => a == b && isPrefixOfL as bs

def infixAt : List Char → List Char → Bool
  | pat, [] => isPrefixOfL pat []
  | pat, c :: rest => isPrefixOfL pat (c :: rest) || infixAt pat rest

def includes (s pat : String) : Bool := infixAt pat.toList s.toList

deriving instance DecidableEq for Except

/-- JS String.prototype.trim: drop leading and trailing whitespace. -/
def jsTrim (s : String) : String :=
  ⟨((s.toList.dropWhile Char.isWhitespace).reverse.dropWhile Char.isWhitespace).reverse⟩

structure GenState where
  failureCount : Nat
  lastFailureTime : Nat
  isOpen : Bool
deriving Repr, DecidableEq

def resetTimeout : Nat := 60000

inductive Outcome where
  | ok (text : String)
  | err (msg : String)
deriving Repr, DecidableEq

structure GenTrace where
  result : Except String String
  state : GenState
  backendCalls : Nat
  delays : List (Nat × ℚ)
deriving Repr, DecidableEq

def isRetryableError (msg : String) : Bool :=
  includes msg "503 Service Unavailable" ||
  includes msg "The model is overloaded" ||
  includes msg "RATE_LIMIT_EXCEEDED" ||
  includes msg "RESOURCE_EXHAUSTED" ||
  includes msg "INTERNAL" ||
  includes msg "UNAVAILABLE" ||
  includes msg "DEADLINE_EXCEEDED" ||
  includes msg "temporarily unavailable"

def isOverloadError (msg : String) : Bool :=
  includes msg "503 Service Unavailable" || includes msg "The model is overloaded"

def recordOverload (st : GenState) (failTime : Nat) : GenState :=
  { failureCount := st.failureCount + 1, lastFailureTime := failTime,
    isOpen := if 3 ≤ st.failureCount + 1 then true else st.isOpen }

inductive CatchStep where
  | throwErr (msg : String) (st : GenState)
  | retry (st : GenState) (delay : ℚ)
deriving Repr, DecidableEq

def handleCatch (st : GenState) (attempt maxRetries failTime : Nat)
    (jitter baseDelay : ℚ) (msg : String) : CatchStep :=
  if includes msg "API_KEY_INVALID" then
    .throwErr "Invalid Gemini API key. Please check your configuration." st
  else if includes msg "QUOTA_EXCEEDED" then
    .throwErr "Gemini API quota exceeded. Please try again later." st
  else
    let st' := if isOverloadError msg then recordOverload st failTime else st
    if isRetryableError msg && decide (attempt < maxRetries) then
      .retry st' (min (baseDelay * 2 ^ (attempt - 1) + jitter) 10000)
    else
      .throwErr ("AI generation failed after " ++ toString attempt ++ " attempt(s): " ++ msg) st'

def genAttempts (outcomes : Nat → Outcome) (times : Nat → Nat) (jitters : Nat → ℚ)
    (maxRetries : Nat) (baseDelay : ℚ) :
    Nat → Nat → GenState → Nat → List (Nat × ℚ) → GenTrace
  | _, 0, st, calls, ds =>
    { result := .error "undefined", state := st, backendCalls := calls, delays := ds }
  | attempt, fuel + 1, st, calls, ds =>
    match outcomes attempt with
    | .ok text =>
      let st' := if 0 < st.failureCount
                 then { st with failureCount := 0, isOpen := false } else st
      if (jsTrim text).length = 0 then
        match handleCatch st' attempt maxRetries (times attempt) (jitters attempt) baseDelay
            "Empty response from Gemini" with
        | .throwErr m st2 =>
          { result := .error m, state := st2, backendCalls := calls + 1, delays := ds }
        | .retry st2 delay =>
          genAttempts outcomes times jitters maxRetries baseDelay (attempt + 1) fuel st2
            (calls + 1) (ds ++ [(attempt, delay)])
      else
        { result := .ok (jsTrim text), state := st', backendCalls := calls + 1, delays := ds }
    | .err msg =>
      match handleCatch st attempt maxRetries (times attempt) (jitters attempt) baseDelay msg with
      | .throwErr m st2 =>
        { result := .error m, state := st2, backendCalls := calls + 1, delays := ds }
      | .retry st2 delay =>
        genAttempts outcomes times jitters maxRetries baseDelay (attempt + 1) fuel st2
          (calls + 1) (ds ++ [(attempt, delay)])

def breakerOpenMessage (remainingMs : Nat) : String :=
  "Service temporarily unavailable. Circuit breaker is open. Try again in " ++
    toString ((remainingMs + 500) / 1000) ++ " seconds."

def generateWithGemini (outcomes : Nat → Outcome) (times : Nat → Nat) (jitters : Nat → ℚ)
    (maxRetries : Nat) (baseDelay : ℚ) (st : GenState) (now : Nat) : GenTrace :=
  if st.isOpen then
    if now - st.lastFailureTime < resetTimeout then
      { result := .error (breakerOpenMessage (resetTimeout - (now - st.lastFailureTime))),
        state := st, backendCalls := 0, delays := [] }
    else
      genAttempts outcomes times jitters maxRetries baseDelay 1 maxRetries
        { st with isOpen := false, failureCount := 0 } 0 []
  else
    genAttempts outcomes times jitters maxRetries baseDelay 1 maxRetries st 0 []

inductive ChatFailure where
  | serviceOverloaded (status retryAfter : Nat)
  | quotaExceeded (status : Nat)
  | aiUnavailable (status : Nat)
  | generic (status : Nat)
deriving Repr, DecidableEq

def mapChatError (msg : String) : ChatFailure :=
  if includes msg "overloaded" then .serviceOverloaded 503 30
  else if includes msg "quota exceeded" then .quotaExceeded 429
  else if includes msg "Ollama server is not running" then .aiUnavailable 503
  else if includes msg "Model" && includes msg "not found" then .aiUnavailable 503
  else .generic 500

-- sanity checks

def CatchStep.stateOf : CatchStep → GenState
  | .throwErr _ st => st
  | .retry st _ => st

def sampleText : List Char := List.replicate 1500 'a'

structure DocRecord where
  originalName : List Char
  chunks : List Chunk
deriving Repr, DecidableEq

/-- JS Array.prototype.join(sep). -/
def joinSep (sep : List Char) : List (List Char) → List Char
  | [] => []
  | [x] => x
  | x :: y :: ys => x ++ sep ++ joinSep sep (y :: ys)

def docSections (docs : List DocRecord) (i : Nat) : List (List Char) :=
  match docs with
  | [] => []
  | d :: ds =>
    ("Doc".toList ++ (toString (i + 1)).toList ++ " \"".toList ++ d.originalName
      ++ "\": ".toList
      ++ joinSep "\n\n".toList ((d.chunks.take 4).map (fun c => c.text.take 500)))
      :: docSections ds (i + 1)

def buildDocumentPrompt (question : List Char) (docs : List DocRecord) : List Char :=
  "Based on these documents, answer the question concisely:\n\n".toList
    ++ joinSep "\n---\n".toList (docSections docs 0)
    ++ "\n\nQ: ".toList ++ question ++ "\nA:".toList

def buildMinimalPrompt (question : List Char) (docs : List DocRecord) : List Char :=
  joinSep "\n".toList (docs.map (fun d =>
    d.originalName ++ ": ".toList ++
      (match d.chunks.head? with
       | some c => c.text.take 200
       | none => [])))
    ++ "\n\nQ: ".toList ++ question ++ "\nA:".toList

def chatPrompts (question : List Char) (docs : List DocRecord)
    (gen : List Char → Except String String) :
    Except ChatFailure String × List (List Char) :=
  let prompt := buildDocumentPrompt question docs
  match gen prompt with
  | .ok text => (.ok text, [prompt])
  | .error msg => (.error (mapChatError msg), [prompt])

def sampleDoc : DocRecord :=
  { originalName := "doc.pdf".toList,
    chunks := [{ text := List.replicate 600 'x',
                 source := { filename := "doc.pdf", page := 1, start := 0, stop := 600 } }] }

def qSmall : List Char := "What?".toList

def docSmall : DocRecord :=
  { originalName := "a.txt".toList,
    chunks := [{ text := "hello".toList,
                 source := { filename := "a.txt", page := 1, start := 0, stop := 5 } }] }

structure StoredDoc where
  id : Nat
  isActive : Bool
  chunks : List Chunk
deriving Repr, DecidableEq

def MAX_DOCUMENTS_PER_USER : Nat := 5

def countActive (store : List StoredDoc) : Nat :=
  (store.filter (fun d => d.isActive)).length

inductive UploadResult where
  | limitReached (limit current : Nat)
  | created (doc : StoredDoc)
deriving Repr, DecidableEq

structure UploadOutcome where
  result : UploadResult
  store : List StoredDoc
  chunkCalls : Nat
deriving Repr, DecidableEq

def uploadFile (store : List StoredDoc) (newId : Nat) (text : List Char)
    (filename : String) : UploadOutcome :=
  let documentCount := countActive store
  if MAX_DOCUMENTS_PER_USER ≤ documentCount then
    { result := .limitReached MAX_DOCUMENTS_PER_USER documentCount, store := store,
      chunkCalls := 0 }
  else
    let doc : StoredDoc := { id := newId, isActive := true, chunks := chunkText text filename }
    { result := .created doc, store := store ++ [doc], chunkCalls := 1 }

def deleteFile (store : List StoredDoc) (docId : Nat) : Option (List StoredDoc) :=
  if store.any (fun d => d.id == docId && d.isActive) then
    some (store.map (fun d => if d.id == docId then { d with isActive := false } else d))
  else
    none

def sampleStore : List StoredDoc :=
  [⟨1, true, []⟩, ⟨2, true, []⟩, ⟨3, true, []⟩, ⟨4, true, []⟩, ⟨5, true, []⟩]

def sampleStore2 : List StoredDoc :=
  [⟨1, false, []⟩, ⟨2, true, []⟩, ⟨3, true, []⟩, ⟨4, true, []⟩, ⟨5, true, []⟩]

lemma chunkGo_join (text : List Char) (f : String) (i : Nat) :
    ((chunkGo text f i).map Chunk.text).flatten = text.drop i := by
  induction i using chunkGo.induct text f with
  | case1 i h ih =>
    rw [chunkGo.eq_def]
    simp only [h, if_true, List.map_cons, List.flatten_cons, ih, chunkAt]
    have h1 : text.drop (min (i + CHUNK_SIZE) text.length)
        = (text.drop i).drop (min (i + CHUNK_SIZE) text.length - i) := by
      rw [List.drop_drop]
      congr 1
      omega
    rw [h1, List.take_append_drop]
  | case2 i h =>
    rw [chunkGo.eq_def]
    simp only [h, if_false, List.map_nil, List.flatten_nil]
    symm
    rw [List.drop_eq_nil_iff]
    omega

lemma chunkGo_lt_length (text : List Char) (f : String) (i : Nat) :
    ∀ k, k < (chunkGo text f i).length ↔ i + CHUNK_SIZE * k < text.length := by
  induction i using chunkGo.induct text f with
  | case1 i h ih =>
    intro k
    rw [chunkGo.eq_def]
    simp only [h, if_true, List.length_cons]
    cases k with
    | zero => simp only [CHUNK_SIZE]; omega
    | succ k =>
      rw [Nat.succ_lt_succ_iff, ih k]
      simp only [CHUNK_SIZE] at *
      omega
  | case2 i h =>
    intro k
    rw [chunkGo.eq_def]
    simp only [h, if_false, List.length_nil]
    simp only [CHUNK_SIZE]
    omega

lemma chunkGo_getElem? (text : List Char) (f : String) (i : Nat) :
    ∀ k, i + CHUNK_SIZE * k < text.length →
    (chunkGo text f i)[k]? = some (chunkAt text f (i + CHUNK_SIZE * k)) := by
  induction i using chunkGo.induct text f with
  | case1 i h ih =>
    intro k hk
    rcases k with _ | k
    · rw [chunkGo.eq_def]
      simp [h]
    · rw [chunkGo.eq_def]
      simp only [h, if_true, List.getElem?_cons_succ]
      have harith : i + CHUNK_SIZE * (k + 1) = i + CHUNK_SIZE + CHUNK_SIZE * k := by ring
      have he : min (i + CHUNK_SIZE) text.length = i + CHUNK_SIZE := by omega
      rw [he] at ih
      rw [he, ih k (by omega), harith]
  | case2 i h =>
    intro k hk
    omega

lemma chunkGo_length (text : List Char) (f : String) (i : Nat) :
    (chunkGo text f i).length =
      if i < text.length then (text.length - i - 1) / CHUNK_SIZE + 1 else 0 := by
  induction i using chunkGo.induct text f with
  | case1 i h ih =>
    rw [chunkGo.eq_def]
    simp only [h, if_true, List.length_cons]
    by_cases h2 : i + CHUNK_SIZE < text.length
    · have he : min (i + CHUNK_SIZE) text.length = i + CHUNK_SIZE := by omega
      rw [he] at ih ⊢
      simp only [h2, if_true] at ih
      rw [ih]
      have hc : CHUNK_SIZE ≤ text.length - i - 1 := by omega
      rw [Nat.div_eq_sub_div (by simp only [CHUNK_SIZE]; omega) hc]
      have h3 : text.length - i - 1 - CHUNK_SIZE = text.length - (i + CHUNK_SIZE) - 1 := by
        omega
      rw [h3]
    · have he : min (i + CHUNK_SIZE) text.length = text.length := by omega
      rw [he] at ih
      simp only [lt_irrefl, if_false] at ih
      rw [he, ih]
      have : (text.length - i - 1) / CHUNK_SIZE = 0 :=
        Nat.div_eq_of_lt (by simp only [CHUNK_SIZE] at *; omega)
      omega
  | case2 i h =>
    rw [chunkGo.eq_def]
    simp [h]

-- C6 check

lemma chunkText_get (t : List Char) (f : String) (k : Nat)
    (hk : k < (chunkText t f).length) :
    (chunkText t f).get ⟨k, hk⟩ = chunkAt t f (CHUNK_SIZE * k) := by
  have h1 := (chunkGo_lt_length t f 0 k).1 hk
  have h2 := chunkGo_getElem? t f 0 k h1
  rw [Nat.zero_add] at h2
  rw [List.get_eq_getElem]
  have h4 : (chunkText t f)[k]? = some (chunkAt t f (CHUNK_SIZE * k)) := h2
  have h5 : (chunkText t f)[k]? = some ((chunkText t f)[k]) :=
    List.getElem?_eq_getElem hk
  rw [h4] at h5
  exact (Option.some_inj.mp h5).symm

lemma chunkText_length_pos_iff (t : List Char) (f : String) (k : Nat) :
    k < (chunkText t f).length ↔ CHUNK_SIZE * k < t.length := by
  rw [chunkText, chunkGo_lt_length, Nat.zero_add]

/-- Claim C1: chunkText splits a text into chunks whose texts, concatenated in
order, reproduce the text exactly, and whose [start, stop) offsets form a
contiguous non-overlapping partition of [0, len): the first start is 0, each
chunk's stop equals the next chunk's start, and the last stop is len. -/
theorem chunkText_partition (t : List Char) (f : String) :
    ((chunkText t f).map Chunk.text).flatten = t
    ∧ (∀ h : 0 < (chunkText t f).length,
        ((chunkText t f).get ⟨0, h⟩).source.start = 0)
    ∧ (∀ k (hk : k + 1 < (chunkText t f).length),
        ((chunkText t f).get ⟨k, Nat.lt_of_succ_lt hk⟩).source.stop
          = ((chunkText t f).get ⟨k + 1, hk⟩).source.start)
    ∧ (∀ h : chunkText t f ≠ [],
        ((chunkText t f).getLast h).source.stop = t.length) := by
  refine ⟨?_, ?_, ?_, ?_⟩
  · rw [chunkText, chunkGo_join, List.drop_zero]
  · intro h
    rw [chunkText_get]
    simp [chunkAt]
  · intro k hk
    rw [chunkText_get, chunkText_get]
    have hlt := (chunkText_length_pos_iff t f (k + 1)).1 hk
    have harith : CHUNK_SIZE * (k + 1) = CHUNK_SIZE * k + CHUNK_SIZE := by ring
    simp only [chunkAt]
    omega
  · intro h
    have hpos : 0 < (chunkText t f).length := List.length_pos.mpr h
    rw [List.getLast_eq_get (chunkText t f) h, chunkText_get]
    obtain ⟨m, hm⟩ : ∃ m, (chunkText t f).length = m + 1 :=
      ⟨(chunkText t f).length - 1, by omega⟩
    have hin := (chunkText_length_pos_iff t f m).1 (by omega)
    have hout := (chunkText_length_pos_iff t f (m + 1))
    have harith : CHUNK_SIZE * (m + 1) = CHUNK_SIZE * m + CHUNK_SIZE := by ring
    simp only [chunkAt, hm]
    have hnot : ¬ (m + 1 < (chunkText t f).length) := by omega
    rw [hout] at hnot
    simp only [Nat.add_sub_cancel]
    omega

/-- Claim C6: for non-empty text the chunker produces exactly
ceil(len / CHUNK_SIZE) chunks (with CHUNK_SIZE = 1200), and empty text yields an
empty chunk list rather than an error. -/
theorem chunkText_count (t : List Char) (f : String) :
    (0 < t.length → (chunkText t f).length = (t.length + CHUNK_SIZE - 1) / CHUNK_SIZE)
    ∧ (t = [] → chunkText t f = []) := by
  constructor
  · intro h
    rw [chunkText, chunkGo_length]
    simp only [h, if_true, Nat.sub_zero]
    have h2 : t.length + CHUNK_SIZE - 1 = (t.length - 1) + CHUNK_SIZE := by omega
    rw [h2, Nat.add_div_right _ (by simp only [CHUNK_SIZE]; omega)]
  · intro h
    subst h
    rw [chunkText, chunkGo.eq_def]
    simp

/-- Claim C10: every chunk's source.page equals floor(floor(start / 5) / 300) + 1
and is a positive integer; the first chunk's page is 1; and pages are
non-decreasing in chunk order. -/
theorem chunkText_pages (t : List Char) (f : String) :
    (∀ c ∈ chunkText t f, c.source.page = c.source.start / 5 / 300 + 1 ∧ 1 ≤ c.source.page)
    ∧ (∀ h : 0 < (chunkText t f).length,
        ((chunkText t f).get ⟨0, h⟩).source.page = 1)
    ∧ (∀ k (hk : k + 1 < (chunkText t f).length),
        ((chunkText t f).get ⟨k, Nat.lt_of_succ_lt hk⟩).source.page
          ≤ ((chunkText t f).get ⟨k + 1, hk⟩).source.page) := by
  refine ⟨?_, ?_, ?_⟩
  · intro c hc
    obtain ⟨⟨k, hk⟩, rfl⟩ := List.mem_iff_get.mp hc
    rw [chunkText_get]
    simp [chunkAt]
  · intro h
    rw [chunkText_get]
    simp [chunkAt]
  · intro k hk
    rw [chunkText_get, chunkText_get]
    simp only [chunkAt]
    have h1 : CHUNK_SIZE * k ≤ CHUNK_SIZE * (k + 1) := by
      exact Nat.mul_le_mul_left _ (by omega)
    have h2 : CHUNK_SIZE * k / 5 / 300 ≤ CHUNK_SIZE * (k + 1) / 5 / 300 :=
      Nat.div_le_div_right (Nat.div_le_div_right h1)
    omega

lemma recordOverload_inv (st : GenState) (ft : Nat)
    (h : st.isOpen = true → 3 ≤ st.failureCount) :
    (recordOverload st ft).isOpen = true → 3 ≤ (recordOverload st ft).failureCount := by
  simp only [recordOverload]
  split_ifs with h1
  · intro _; omega
  · intro h2
    have := h h2
    omega

lemma handleCatch_state_inv (st : GenState) (a mr ft : Nat) (j b : ℚ) (msg : String)
    (h : st.isOpen = true → 3 ≤ st.failureCount) :
    ((handleCatch st a mr ft j b msg).stateOf.isOpen = true →
      3 ≤ (handleCatch st a mr ft j b msg).stateOf.failureCount) := by
  simp only [handleCatch]
  split_ifs with h1 h2 h3 h4 <;>
    simp only [CatchStep.stateOf] <;>
    first
      | exact h
      | exact recordOverload_inv st ft h

lemma genAttempts_state_inv (outcomes : Nat → Outcome) (times : Nat → Nat)
    (jitters : Nat → ℚ) (maxRetries : Nat) (baseDelay : ℚ) :
    ∀ (fuel attempt : Nat) (st : GenState) (calls : Nat) (ds : List (Nat × ℚ)),
    (st.isOpen = true → 3 ≤ st.failureCount) →
    (((genAttempts outcomes times jitters maxRetries baseDelay attempt fuel st calls
        ds).state.isOpen = true →
      3 ≤ (genAttempts outcomes times jitters maxRetries baseDelay attempt fuel st calls
        ds).state.failureCount)
    ∧ (∀ t, (genAttempts outcomes times jitters maxRetries baseDelay attempt fuel st calls
        ds).result = .ok t →
        (genAttempts outcomes times jitters maxRetries baseDelay attempt fuel st calls
          ds).state.failureCount = 0
        ∧ (genAttempts outcomes times jitters maxRetries baseDelay attempt fuel st calls
          ds).state.isOpen = false)) := by
  intro fuel
  induction fuel with
  | zero =>
    intro attempt st calls ds h
    refine ⟨by simpa [genAttempts] using h, ?_⟩
    intro t ht
    simp [genAttempts] at ht
  | succ fuel ih =>
    intro attempt st calls ds h
    have hst' : ∀ st2 : GenState,
        st2 = (if 0 < st.failureCount
               then { st with failureCount := 0, isOpen := false } else st) →
        (st2.isOpen = true → 3 ≤ st2.failureCount) := by
      intro st2 hdef
      subst hdef
      split_ifs with hfc
      · simp
      · exact h
    cases ho : outcomes attempt with
    | ok text =>
      by_cases htrim : (jsTrim text).length = 0
      · have hinv' := hst' _ rfl
        have hcatch := handleCatch_state_inv
          (if 0 < st.failureCount then { st with failureCount := 0, isOpen := false } else st)
          attempt maxRetries (times attempt) (jitters attempt) baseDelay
          "Empty response from Gemini" hinv'
        cases hc : handleCatch
            (if 0 < st.failureCount then { st with failureCount := 0, isOpen := false } else st)
            attempt maxRetries (times attempt) (jitters attempt) baseDelay
            "Empty response from Gemini" with
        | throwErr m st2 =>
          rw [hc] at hcatch
          simp only [genAttempts, ho, if_pos htrim, hc]
          exact ⟨hcatch, by intro t ht; simp at ht⟩
        | retry st2 d =>
          rw [hc] at hcatch
          simp only [genAttempts, ho, if_pos htrim, hc]
          exact ih (attempt + 1) st2 (calls + 1) (ds ++ [(attempt, d)]) hcatch
      · simp only [genAttempts, ho, if_neg htrim]
        refine ⟨hst' _ rfl, ?_⟩
        intro t ht
        have hinv' := hst' _ rfl
        constructor
        · -- failureCount of st' is 0
          split_ifs with hfc
          · rfl
          · omega
        · -- isOpen of st' is false
          split_ifs with hfc
          · rfl
          · cases hopen : st.isOpen with
            | false => rfl
            | true => exact absurd (h hopen) (by omega)
    | err msg =>
      have hcatch := handleCatch_state_inv st attempt maxRetries (times attempt)
        (jitters attempt) baseDelay msg h
      cases hc : handleCatch st attempt maxRetries (times attempt) (jitters attempt)
          baseDelay msg with
      | throwErr m st2 =>
        rw [hc] at hcatch
        simp only [genAttempts, ho, hc]
        exact ⟨hcatch, by intro t ht; simp at ht⟩
      | retry st2 d =>
        rw [hc] at hcatch
        simp only [genAttempts, ho, hc]
        exact ih (attempt + 1) st2 (calls + 1) (ds ++ [(attempt, d)]) hcatch

lemma genAttempts_calls_le (outcomes : Nat → Outcome) (times : Nat → Nat)
    (jitters : Nat → ℚ) (maxRetries : Nat) (baseDelay : ℚ) :
    ∀ (fuel attempt : Nat) (st : GenState) (calls : Nat) (ds : List (Nat × ℚ)),
    calls ≤ (genAttempts outcomes times jitters maxRetries baseDelay attempt fuel st calls
      ds).backendCalls := by
  intro fuel
  induction fuel with
  | zero => intro attempt st calls ds; simp [genAttempts]
  | succ fuel ih =>
    intro attempt st calls ds
    cases ho : outcomes attempt with
    | ok text =>
      by_cases htrim : (jsTrim text).length = 0
      · cases hc : handleCatch
            (if 0 < st.failureCount then { st with failureCount := 0, isOpen := false } else st)
            attempt maxRetries (times attempt) (jitters attempt) baseDelay
            "Empty response from Gemini" with
        | throwErr m st2 => simp only [genAttempts, ho, if_pos htrim, hc]; omega
        | retry st2 d =>
          simp only [genAttempts, ho, if_pos htrim, hc]
          have := ih (attempt + 1) st2 (calls + 1) (ds ++ [(attempt, d)])
          omega
      · simp only [genAttempts, ho, if_neg htrim]; omega
    | err msg =>
      cases hc : handleCatch st attempt maxRetries (times attempt) (jitters attempt)
          baseDelay msg with
      | throwErr m st2 => simp only [genAttempts, ho, hc]; omega
      | retry st2 d =>
        simp only [genAttempts, ho, hc]
        have := ih (attempt + 1) st2 (calls + 1) (ds ++ [(attempt, d)])
        omega

lemma genAttempts_calls_pos (outcomes : Nat → Outcome) (times : Nat → Nat)
    (jitters : Nat → ℚ) (maxRetries : Nat) (baseDelay : ℚ)
    (fuel attempt : Nat) (st : GenState) (calls : Nat) (ds : List (Nat × ℚ))
    (hfuel : 1 ≤ fuel) :
    calls + 1 ≤ (genAttempts outcomes times jitters maxRetries baseDelay attempt fuel st calls
      ds).backendCalls := by
  obtain ⟨fuel', rfl⟩ : ∃ f, fuel = f + 1 := ⟨fuel - 1, by omega⟩
  cases ho : outcomes attempt with
  | ok text =>
    by_cases htrim : (jsTrim text).length = 0
    · cases hc : handleCatch
          (if 0 < st.failureCount then { st with failureCount := 0, isOpen := false } else st)
          attempt maxRetries (times attempt) (jitters attempt) baseDelay
          "Empty response from Gemini" with
      | throwErr m st2 => simp only [genAttempts, ho, if_pos htrim, hc]; omega
      | retry st2 d =>
        simp only [genAttempts, ho, if_pos htrim, hc]
        exact genAttempts_calls_le outcomes times jitters maxRetries baseDelay
          fuel' (attempt + 1) st2 (calls + 1) (ds ++ [(attempt, d)])
    · simp only [genAttempts, ho, if_neg htrim]; omega
  | err msg =>
    cases hc : handleCatch st attempt maxRetries (times attempt) (jitters attempt)
        baseDelay msg with
    | throwErr m st2 => simp only [genAttempts, ho, hc]; omega
    | retry st2 d =>
      simp only [genAttempts, ho, hc]
      exact genAttempts_calls_le outcomes times jitters maxRetries baseDelay
        fuel' (attempt + 1) st2 (calls + 1) (ds ++ [(attempt, d)])

lemma handleCatch_retry_delay (st : GenState) (a mr ft : Nat) (j b : ℚ) (msg : String)
    (st2 : GenState) (d : ℚ)
    (h : handleCatch st a mr ft j b msg = .retry st2 d) :
    d = min (b * 2 ^ (a - 1) + j) 10000 := by
  simp only [handleCatch] at h
  split_ifs at h <;> (cases h; try rfl)

lemma genAttempts_delays (outcomes : Nat → Outcome) (times : Nat → Nat)
    (jitters : Nat → ℚ) (maxRetries : Nat) (baseDelay : ℚ) :
    ∀ (fuel attempt : Nat) (st : GenState) (calls : Nat) (ds : List (Nat × ℚ)),
    ∀ p ∈ (genAttempts outcomes times jitters maxRetries baseDelay attempt fuel st calls
      ds).delays,
    p ∈ ds ∨ p.2 = min (baseDelay * 2 ^ (p.1 - 1) + jitters p.1) 10000 := by
  intro fuel
  induction fuel with
  | zero => intro attempt st calls ds p hp; exact Or.inl (by simpa [genAttempts] using hp)
  | succ fuel ih =>
    intro attempt st calls ds p hp
    cases ho : outcomes attempt with
    | ok text =>
      by_cases htrim : (jsTrim text).length = 0
      · cases hc : handleCatch
            (if 0 < st.failureCount then { st with failureCount := 0, isOpen := false } else st)
            attempt maxRetries (times attempt) (jitters attempt) baseDelay
            "Empty response from Gemini" with
        | throwErr m st2 =>
          simp only [genAttempts, ho, if_pos htrim, hc] at hp
          exact Or.inl hp
        | retry st2 d =>
          simp only [genAttempts, ho, if_pos htrim, hc] at hp
          rcases ih (attempt + 1) st2 (calls + 1) (ds ++ [(attempt, d)]) p hp with hin | hf
          · rcases List.mem_append.mp hin with hin2 | hin2
            · exact Or.inl hin2
            · right
              have hpd : p = (attempt, d) := by simpa using hin2
              subst hpd
              exact handleCatch_retry_delay _ _ _ _ _ _ _ _ _ hc
          · exact Or.inr hf
      · simp only [genAttempts, ho, if_neg htrim] at hp
        exact Or.inl hp
    | err msg =>
      cases hc : handleCatch st attempt maxRetries (times attempt) (jitters attempt)
          baseDelay msg with
      | throwErr m st2 =>
        simp only [genAttempts, ho, hc] at hp
        exact Or.inl hp
      | retry st2 d =>
        simp only [genAttempts, ho, hc] at hp
        rcases ih (attempt + 1) st2 (calls + 1) (ds ++ [(attempt, d)]) p hp with hin | hf
        · rcases List.mem_append.mp hin with hin2 | hin2
          · exact Or.inl hin2
          · right
            have hpd : p = (attempt, d) := by simpa using hin2
            subst hpd
            exact handleCatch_retry_delay _ _ _ _ _ _ _ _ _ hc
        · exact Or.inr hf

lemma genAttempts_ok_result (outcomes : Nat → Outcome) (times : Nat → Nat)
    (jitters : Nat → ℚ) (maxRetries : Nat) (baseDelay : ℚ) :
    ∀ (fuel attempt : Nat) (st : GenState) (calls : Nat) (ds : List (Nat × ℚ)) (t : String),
    (genAttempts outcomes times jitters maxRetries baseDelay attempt fuel st calls
      ds).result = .ok t →
    ∃ a raw, outcomes a = .ok raw ∧ jsTrim raw ≠ "" ∧ t = jsTrim raw := by
  intro fuel
  induction fuel with
  | zero => intro attempt st calls ds t ht; simp [genAttempts] at ht
  | succ fuel ih =>
    intro attempt st calls ds t ht
    cases ho : outcomes attempt with
    | ok text =>
      by_cases htrim : (jsTrim text).length = 0
      · cases hc : handleCatch
            (if 0 < st.failureCount then { st with failureCount := 0, isOpen := false } else st)
            attempt maxRetries (times attempt) (jitters attempt) baseDelay
            "Empty response from Gemini" with
        | throwErr m st2 =>
          simp only [genAttempts, ho, if_pos htrim, hc] at ht
          cases ht
        | retry st2 d =>
          simp only [genAttempts, ho, if_pos htrim, hc] at ht
          exact ih (attempt + 1) st2 (calls + 1) (ds ++ [(attempt, d)]) t ht
      · simp only [genAttempts, ho, if_neg htrim] at ht
        refine ⟨attempt, text, ho, ?_, ?_⟩
        · intro he
          rw [he] at htrim
          simp at htrim
        · exact (by injection ht with h2; exact h2.symm)
    | err msg =>
      cases hc : handleCatch st attempt maxRetries (times attempt) (jitters attempt)
          baseDelay msg with
      | throwErr m st2 =>
        simp only [genAttempts, ho, hc] at ht
        cases ht
      | retry st2 d =>
        simp only [genAttempts, ho, hc] at ht
        exact ih (attempt + 1) st2 (calls + 1) (ds ++ [(attempt, d)]) t ht

/-- Claim C2: the circuit breaker opens only once failureCount reaches the
threshold 3 (the invariant isOpen = true implies 3 <= failureCount is preserved);
while open and within resetTimeout of lastFailureTime every call fails
immediately with the service-unavailable message carrying the remaining
retry-after, making no backend call and leaving the state unchanged; once
resetTimeout has elapsed the breaker closes (isOpen = false, failureCount = 0)
and the call proceeds to the backend; and any successful generation leaves
failureCount = 0 and isOpen = false. -/
theorem circuitBreaker_protocol (outcomes : Nat → Outcome) (times : Nat → Nat)
    (jitters : Nat → ℚ) (maxRetries : Nat) (baseDelay : ℚ) (st : GenState) (now : Nat)
    (hinv : st.isOpen = true → 3 ≤ st.failureCount) :
    (st.isOpen = true → now - st.lastFailureTime < resetTimeout →
      generateWithGemini outcomes times jitters maxRetries baseDelay st now =
        { result := .error (breakerOpenMessage (resetTimeout - (now - st.lastFailureTime))),
          state := st, backendCalls := 0, delays := [] })
    ∧ (st.isOpen = true → resetTimeout ≤ now - st.lastFailureTime →
      generateWithGemini outcomes times jitters maxRetries baseDelay st now =
        genAttempts outcomes times jitters maxRetries baseDelay 1 maxRetries
          { st with isOpen := false, failureCount := 0 } 0 []
      ∧ (1 ≤ maxRetries →
        1 ≤ (generateWithGemini outcomes times jitters maxRetries baseDelay st now).backendCalls))
    ∧ (∀ t,
        (generateWithGemini outcomes times jitters maxRetries baseDelay st now).result = .ok t →
        (generateWithGemini outcomes times jitters maxRetries baseDelay st
          now).state.failureCount = 0
        ∧ (generateWithGemini outcomes times jitters maxRetries baseDelay st
          now).state.isOpen = false)
    ∧ ((generateWithGemini outcomes times jitters maxRetries baseDelay st
          now).state.isOpen = true →
        3 ≤ (generateWithGemini outcomes times jitters maxRetries baseDelay st
          now).state.failureCount) := by
  refine ⟨?_, ?_, ?_, ?_⟩
  · intro h1 h2
    simp only [generateWithGemini, h1, if_true, if_pos h2]
  · intro h1 h2
    have hnot : ¬ (now - st.lastFailureTime < resetTimeout) := by omega
    constructor
    · simp only [generateWithGemini, h1, if_true, if_neg hnot]
    · intro hmr
      simp only [generateWithGemini, h1, if_true, if_neg hnot]
      have := genAttempts_calls_pos outcomes times jitters maxRetries baseDelay
        maxRetries 1 { st with isOpen := false, failureCount := 0 } 0 [] hmr
      omega
  · intro t ht
    cases hopen : st.isOpen with
    | true =>
      by_cases h2 : now - st.lastFailureTime < resetTimeout
      · simp only [generateWithGemini, hopen, if_true, if_pos h2] at ht
        cases ht
      · simp only [generateWithGemini, hopen, if_true, if_neg h2] at ht ⊢
        exact (genAttempts_state_inv outcomes times jitters maxRetries baseDelay
          maxRetries 1 { st with isOpen := false, failureCount := 0 } 0 []
          (by simp)).2 t ht
    | false =>
      simp only [generateWithGemini, hopen, Bool.false_eq_true, if_false] at ht ⊢
      exact (genAttempts_state_inv outcomes times jitters maxRetries baseDelay
        maxRetries 1 st 0 [] hinv).2 t ht
  · cases hopen : st.isOpen with
    | true =>
      by_cases h2 : now - st.lastFailureTime < resetTimeout
      · simp only [generateWithGemini, hopen, if_true, if_pos h2]
        intro _
        exact hinv hopen
      · simp only [generateWithGemini, hopen, if_true, if_neg h2]
        exact (genAttempts_state_inv outcomes times jitters maxRetries baseDelay
          maxRetries 1 { st with isOpen := false, failureCount := 0 } 0 [] (by simp)).1
    | false =>
      simp only [generateWithGemini, hopen, Bool.false_eq_true, if_false]
      exact (genAttempts_state_inv outcomes times jitters maxRetries baseDelay
        maxRetries 1 st 0 [] hinv).1

theorem circuitBreaker_protocol_witness :
    ((⟨3, 0, true⟩ : GenState).isOpen = true → 3 ≤ (⟨3, 0, true⟩ : GenState).failureCount)
    ∧ generateWithGemini (fun _ => Outcome.err "The model is overloaded") (fun _ => 0)
        (fun _ => 0) 3 1000 ⟨3, 0, true⟩ 18000 =
      { result := .error (breakerOpenMessage 42000), state := ⟨3, 0, true⟩,
        backendCalls := 0, delays := [] } := by
  constructor
  · intro _; decide
  · have h := (circuitBreaker_protocol (fun _ => Outcome.err "The model is overloaded")
      (fun _ => 0) (fun _ => 0) 3 1000 ⟨3, 0, true⟩ 18000 (by intro _; decide)).1
      rfl (by norm_num [resetTimeout])
    norm_num [resetTimeout] at h
    exact h

/-- Claim C3: every recorded retry delay for failed attempt n equals
min(baseDelay * 2 ^ (n - 1) + jitter, 10000) with jitter drawn from [0, 1000);
for baseDelay = 1000 each delay is at most 10000 ms and, for the delays before
attempts 2 and 3, lies between 1000 * 2 ^ (n - 1) and 1000 * 2 ^ (n - 1) + 1000. -/
theorem retryBackoff_delays (outcomes : Nat → Outcome) (times : Nat → Nat)
    (jitters : Nat → ℚ) (maxRetries : Nat) (baseDelay : ℚ) (st : GenState) (now : Nat)
    (hjit : ∀ a, 0 ≤ jitters a ∧ jitters a < 1000) :
    ∀ p ∈ (generateWithGemini outcomes times jitters maxRetries baseDelay st now).delays,
      p.2 = min (baseDelay * 2 ^ (p.1 - 1) + jitters p.1) 10000
      ∧ (baseDelay = 1000 → p.2 ≤ 10000
          ∧ (p.1 ≤ 4 → 1000 * 2 ^ (p.1 - 1) ≤ p.2 ∧ p.2 ≤ 1000 * 2 ^ (p.1 - 1) + 1000)) := by
  intro p hp
  have hformula : p.2 = min (baseDelay * 2 ^ (p.1 - 1) + jitters p.1) 10000 := by
    cases hopen : st.isOpen with
    | true =>
      by_cases h2 : now - st.lastFailureTime < resetTimeout
      · simp only [generateWithGemini, hopen, if_true, if_pos h2] at hp
        simp at hp
      · simp only [generateWithGemini, hopen, if_true, if_neg h2] at hp
        rcases genAttempts_delays outcomes times jitters maxRetries baseDelay
          maxRetries 1 { st with isOpen := false, failureCount := 0 } 0 [] p hp with hin | hf
        · simp at hin
        · exact hf
    | false =>
      simp only [generateWithGemini, hopen, Bool.false_eq_true, if_false] at hp
      rcases genAttempts_delays outcomes times jitters maxRetries baseDelay
        maxRetries 1 st 0 [] p hp with hin | hf
      · simp at hin
      · exact hf
  refine ⟨hformula, ?_⟩
  rintro rfl
  obtain ⟨hj0, hj1⟩ := hjit p.1
  constructor
  · rw [hformula]
    exact min_le_right _ _
  · intro hp4
    have hX : (1000 : ℚ) * 2 ^ (p.1 - 1) ≤ 8000 := by
      interval_cases h : p.1 <;> norm_num
    constructor
    · rw [hformula]
      exact le_min (by linarith) (by linarith)
    · rw [hformula]
      calc min ((1000:ℚ) * 2 ^ (p.1 - 1) + jitters p.1) 10000
          ≤ 1000 * 2 ^ (p.1 - 1) + jitters p.1 := min_le_left _ _
        _ ≤ 1000 * 2 ^ (p.1 - 1) + 1000 := by linarith

lemma handleCatch_overloaded (st : GenState) (a mr ft : Nat) (j b : ℚ) :
    handleCatch st a mr ft j b "The model is overloaded" =
      if a < mr then .retry (recordOverload st ft) (min (b * 2 ^ (a - 1) + j) 10000)
      else .throwErr ("AI generation failed after " ++ toString a ++
        " attempt(s): " ++ "The model is overloaded") (recordOverload st ft) := by
  have h1 : includes "The model is overloaded" "API_KEY_INVALID" = false := by decide
  have h2 : includes "The model is overloaded" "QUOTA_EXCEEDED" = false := by decide
  have h3 : isRetryableError "The model is overloaded" = true := by decide
  have h4 : isOverloadError "The model is overloaded" = true := by decide
  simp only [handleCatch, h1, h2, h3, h4, Bool.false_eq_true, if_false, if_true, Bool.true_and]
  by_cases h : a < mr
  · simp [h]
  · simp [h]

lemma overloadRun (times : Nat → Nat) (jitters : Nat → ℚ) :
    generateWithGemini (fun _ => .err "The model is overloaded") times jitters
      3 1000 ⟨0, 0, false⟩ 0 =
      { result := .error "AI generation failed after 3 attempt(s): The model is overloaded",
        state := ⟨3, times 3, true⟩, backendCalls := 3,
        delays := [(1, min (1000 * 2 ^ (1 - 1) + jitters 1) 10000),
                   (2, min (1000 * 2 ^ (2 - 1) + jitters 2) 10000)] } := by
  have hs : "AI generation failed after " ++ toString (3:Nat) ++ " attempt(s): "
      ++ "The model is overloaded"
      = "AI generation failed after 3 attempt(s): The model is overloaded" := by decide
  show genAttempts (fun _ => .err "The model is overloaded") times jitters 3 1000
      1 3 ⟨0, 0, false⟩ 0 [] = _
  show genAttempts (fun _ => .err "The model is overloaded") times jitters 3 1000
      1 (2 + 1) ⟨0, 0, false⟩ 0 [] = _
  rw [genAttempts]
  dsimp only
  rw [handleCatch_overloaded, if_pos (by norm_num)]
  dsimp only
  rw [genAttempts]
  dsimp only
  rw [handleCatch_overloaded, if_pos (by norm_num)]
  dsimp only
  rw [genAttempts]
  dsimp only
  rw [handleCatch_overloaded, if_neg (by norm_num)]
  dsimp only
  rw [hs]
  simp only [recordOverload]
  norm_num

theorem retryBackoff_delays_witness :
    (∀ a : Nat, (0:ℚ) ≤ (fun _ => (0:ℚ)) a ∧ (fun _ => (0:ℚ)) a < 1000)
    ∧ ((1 : Nat), (1000 : ℚ)) ∈ (generateWithGemini
        (fun _ => Outcome.err "The model is overloaded") (fun _ => 0) (fun _ => 0)
        3 1000 ⟨0, 0, false⟩ 0).delays
    ∧ (1000 : ℚ) = min (1000 * 2 ^ ((1:Nat) - 1) + (fun _ => (0:ℚ)) 1) 10000
    ∧ (1000 : ℚ) ≤ 10000 := by
  have hjit : ∀ a : Nat, (0:ℚ) ≤ (fun _ => (0:ℚ)) a ∧ (fun _ => (0:ℚ)) a < 1000 := by
    intro a
    norm_num
  have hmem : ((1 : Nat), (1000 : ℚ)) ∈ (generateWithGemini
      (fun _ => Outcome.err "The model is overloaded") (fun _ => 0) (fun _ => 0)
      3 1000 ⟨0, 0, false⟩ 0).delays := by
    rw [overloadRun]
    norm_num
  have h := retryBackoff_delays (fun _ => Outcome.err "The model is overloaded")
    (fun _ => 0) (fun _ => 0) 3 1000 ⟨0, 0, false⟩ 0 hjit ((1 : Nat), (1000 : ℚ)) hmem
  exact ⟨hjit, hmem, h.1, (h.2 rfl).1⟩

lemma handleCatch_empty (st : GenState) (mr ft : Nat) (j b : ℚ) :
    handleCatch st 1 mr ft j b "Empty response from Gemini" =
      .throwErr "AI generation failed after 1 attempt(s): Empty response from Gemini" st := by
  have h1 : includes "Empty response from Gemini" "API_KEY_INVALID" = false := by decide
  have h2 : includes "Empty response from Gemini" "QUOTA_EXCEEDED" = false := by decide
  have h3 : isRetryableError "Empty response from Gemini" = false := by decide
  have h4 : isOverloadError "Empty response from Gemini" = false := by decide
  have hs : "AI generation failed after " ++ toString (1:Nat) ++ " attempt(s): "
      ++ "Empty response from Gemini"
      = "AI generation failed after 1 attempt(s): Empty response from Gemini" := by decide
  simp only [handleCatch, h1, h2, h3, h4, Bool.false_eq_true, if_false, Bool.false_and, hs]

/-- Claim C9: every successful return of generateWithGemini carries the trimmed
backend text, non-empty after trimming; if the backend yields empty or
whitespace-only text, the call instead raises the error wrapping
"Empty response from Gemini". -/
theorem generate_nonempty_response (outcomes : Nat → Outcome) (times : Nat → Nat)
    (jitters : Nat → ℚ) (maxRetries : Nat) (baseDelay : ℚ) (st : GenState) (now : Nat) :
    (∀ t, (generateWithGemini outcomes times jitters maxRetries baseDelay st now).result = .ok t →
      ∃ a raw, outcomes a = .ok raw ∧ jsTrim raw ≠ "" ∧ t = jsTrim raw)
    ∧ (∀ raw, st.isOpen = false → 1 ≤ maxRetries → outcomes 1 = .ok raw →
      (jsTrim raw).length = 0 →
      (generateWithGemini outcomes times jitters maxRetries baseDelay st now).result =
        .error "AI generation failed after 1 attempt(s): Empty response from Gemini") := by
  constructor
  · intro t ht
    cases hopen : st.isOpen with
    | true =>
      by_cases h2 : now - st.lastFailureTime < resetTimeout
      · simp only [generateWithGemini, hopen, if_true, if_pos h2] at ht
        cases ht
      · simp only [generateWithGemini, hopen, if_true, if_neg h2] at ht
        exact genAttempts_ok_result outcomes times jitters maxRetries baseDelay
          maxRetries 1 _ 0 [] t ht
    | false =>
      simp only [generateWithGemini, hopen, Bool.false_eq_true, if_false] at ht
      exact genAttempts_ok_result outcomes times jitters maxRetries baseDelay
        maxRetries 1 st 0 [] t ht
  · intro raw hopen hmr h1 htrim
    obtain ⟨f, rfl⟩ : ∃ f, maxRetries = f + 1 := ⟨maxRetries - 1, by omega⟩
    simp only [generateWithGemini, hopen, Bool.false_eq_true, if_false]
    rw [genAttempts]
    simp only [h1, if_pos htrim, handleCatch_empty]

theorem generate_nonempty_response_witness :
    ((⟨0, 0, false⟩ : GenState).isOpen = false) ∧ (1 ≤ 3)
    ∧ ((fun _ => Outcome.ok "   ") 1 = Outcome.ok "   ")
    ∧ ((jsTrim "   ").length = 0)
    ∧ (generateWithGemini (fun _ => Outcome.ok "   ") (fun _ => 0) (fun _ => 0) 3 1000
        ⟨0, 0, false⟩ 0).result =
      .error "AI generation failed after 1 attempt(s): Empty response from Gemini" := by
  refine ⟨rfl, by omega, rfl, by decide, ?_⟩
  exact (generate_nonempty_response (fun _ => Outcome.ok "   ") (fun _ => 0) (fun _ => 0)
    3 1000 ⟨0, 0, false⟩ 0).2 "   " rfl (by omega) rfl (by decide)

lemma sampleText_chunkCount : (chunkText sampleText "sample.txt").length = 2 := by
  have h := (chunkText_count sampleText "sample.txt").1
    (by simp only [sampleText, List.length_replicate]; omega)
  rw [h]
  simp only [sampleText, List.length_replicate, CHUNK_SIZE]

theorem chunkText_partition_witness :
    ((chunkText sampleText "sample.txt").map Chunk.text).flatten = sampleText
    ∧ ((chunkText sampleText "sample.txt").get
        ⟨0, by rw [sampleText_chunkCount]; omega⟩).source.start = 0
    ∧ ((chunkText sampleText "sample.txt").get
        ⟨0, by rw [sampleText_chunkCount]; omega⟩).source.stop
      = ((chunkText sampleText "sample.txt").get
        ⟨1, by rw [sampleText_chunkCount]; omega⟩).source.start
    ∧ ((chunkText sampleText "sample.txt").getLast (by
        intro hnil
        have h2 := sampleText_chunkCount
        rw [hnil] at h2
        simp at h2)).source.stop = 1500 := by
  obtain ⟨h1, h2, h3, h4⟩ := chunkText_partition sampleText "sample.txt"
  refine ⟨h1, h2 _, h3 0 (by rw [sampleText_chunkCount]; omega), ?_⟩
  have h5 := h4 (by
    intro hnil
    have h6 := sampleText_chunkCount
    rw [hnil] at h6
    simp at h6)
  rw [h5]
  simp only [sampleText, List.length_replicate]

theorem chunkText_count_witness :
    (0 < sampleText.length
      ∧ (chunkText sampleText "sample.txt").length
          = (sampleText.length + CHUNK_SIZE - 1) / CHUNK_SIZE)
    ∧ chunkText ([] : List Char) "empty.txt" = [] := by
  refine ⟨⟨?_, ?_⟩, ?_⟩
  · simp only [sampleText, List.length_replicate]
    omega
  · exact (chunkText_count sampleText "sample.txt").1
      (by simp only [sampleText, List.length_replicate]; omega)
  · exact (chunkText_count [] "empty.txt").2 rfl

theorem chunkText_pages_witness :
    (∀ c ∈ chunkText sampleText "sample.txt",
      c.source.page = c.source.start / 5 / 300 + 1 ∧ 1 ≤ c.source.page)
    ∧ ((chunkText sampleText "sample.txt").get
        ⟨0, by rw [sampleText_chunkCount]; omega⟩).source.page = 1
    ∧ ((chunkText sampleText "sample.txt").get
        ⟨0, by rw [sampleText_chunkCount]; omega⟩).source.page
      ≤ ((chunkText sampleText "sample.txt").get
        ⟨1, by rw [sampleText_chunkCount]; omega⟩).source.page := by
  obtain ⟨h1, h2, h3⟩ := chunkText_pages sampleText "sample.txt"
  exact ⟨h1, h2 _, h3 0 (by rw [sampleText_chunkCount]; omega)⟩

lemma mapChatError_breakerMsg (secs : Nat) (h : secs ≤ 60) :
    mapChatError ("Service temporarily unavailable. Circuit breaker is open. Try again in "
      ++ toString secs ++ " seconds.") = .generic 500 := by
  revert secs
  decide

lemma handleCatch_quota (st : GenState) (a mr ft : Nat) (j b : ℚ) (msg : String)
    (h1 : includes msg "API_KEY_INVALID" = false)
    (h2 : includes msg "QUOTA_EXCEEDED" = true) :
    handleCatch st a mr ft j b msg =
      .throwErr "Gemini API quota exceeded. Please try again later." st := by
  simp only [handleCatch, h1, h2, Bool.false_eq_true, if_false, if_true]

/-- Claim C7 counterexample: a fail-fast with the circuit breaker open produces
the message "Service temporarily unavailable. Circuit breaker is open. ...",
which the chat controller maps to the generic 500 failure, not to
SERVICE_OVERLOADED with a retry-after, refuting the claim that every
breaker-involved failure surfaces as SERVICE_OVERLOADED. -/
theorem chat_error_mapping_counterexample :
    (generateWithGemini (fun _ => Outcome.err "The model is overloaded") (fun _ => 0)
        (fun _ => 0) 3 1000 ⟨3, 0, true⟩ 18000).result
      = .error (breakerOpenMessage 42000)
    ∧ mapChatError (breakerOpenMessage 42000) = .generic 500
    ∧ mapChatError (breakerOpenMessage 42000) ≠ .serviceOverloaded 503 30 := by
  refine ⟨by decide, by decide, by decide⟩

/-- Claim C7 amended: exhausted retries over "The model is overloaded" errors
surface as SERVICE_OVERLOADED 503 with retry-after 30, because the wrapped
message contains "overloaded"; a breaker-open fail-fast surfaces as the generic
500 generation-failed response; and a QUOTA_EXCEEDED backend error aborts after
a single backend call with no retry delays and surfaces as QUOTA_EXCEEDED 429. -/
theorem chat_error_mapping (times : Nat → Nat) (jitters : Nat → ℚ)
    (outcomes : Nat → Outcome) (st : GenState) (now maxRetries : Nat) (baseDelay : ℚ)
    (m : String) :
    ((generateWithGemini (fun _ => Outcome.err "The model is overloaded") times jitters
        3 1000 ⟨0, 0, false⟩ 0).result
      = .error "AI generation failed after 3 attempt(s): The model is overloaded"
      ∧ mapChatError "AI generation failed after 3 attempt(s): The model is overloaded"
        = .serviceOverloaded 503 30)
    ∧ (st.isOpen = true → now - st.lastFailureTime < resetTimeout →
        (generateWithGemini outcomes times jitters maxRetries baseDelay st now).result
          = .error (breakerOpenMessage (resetTimeout - (now - st.lastFailureTime)))
        ∧ mapChatError (breakerOpenMessage (resetTimeout - (now - st.lastFailureTime)))
          = .generic 500)
    ∧ (st.isOpen = false → 1 ≤ maxRetries → outcomes 1 = .err m →
        includes m "API_KEY_INVALID" = false → includes m "QUOTA_EXCEEDED" = true →
        generateWithGemini outcomes times jitters maxRetries baseDelay st now =
          { result := .error "Gemini API quota exceeded. Please try again later.",
            state := st, backendCalls := 1, delays := [] }
        ∧ mapChatError "Gemini API quota exceeded. Please try again later."
          = .quotaExceeded 429) := by
  refine ⟨⟨?_, by decide⟩, ?_, ?_⟩
  · rw [overloadRun]
  · intro h1 h2
    constructor
    · simp only [generateWithGemini, h1, if_true, if_pos h2]
    · have hr : resetTimeout - (now - st.lastFailureTime) ≤ 60000 := by
        simp only [resetTimeout]
        omega
      have hsecs : (resetTimeout - (now - st.lastFailureTime) + 500) / 1000 ≤ 60 := by
        have h60 : (60500 : Nat) / 1000 = 60 := by norm_num
        calc (resetTimeout - (now - st.lastFailureTime) + 500) / 1000
            ≤ 60500 / 1000 := Nat.div_le_div_right (by omega)
          _ = 60 := h60
      show mapChatError ("Service temporarily unavailable. Circuit breaker is open. Try again in "
        ++ toString ((resetTimeout - (now - st.lastFailureTime) + 500) / 1000) ++ " seconds.")
        = .generic 500
      exact mapChatError_breakerMsg _ hsecs
  · intro h1 hmr ho hk hq
    refine ⟨?_, by decide⟩
    obtain ⟨f, rfl⟩ : ∃ f, maxRetries = f + 1 := ⟨maxRetries - 1, by omega⟩
    simp only [generateWithGemini, h1, Bool.false_eq_true, if_false]
    rw [genAttempts]
    simp only [ho, handleCatch_quota st 1 (f + 1) (times 1) (jitters 1) baseDelay m hk hq]

theorem chat_error_mapping_witness :
    ((⟨3, 0, true⟩ : GenState).isOpen = true ∧ 18000 - (⟨3, 0, true⟩ : GenState).lastFailureTime
        < resetTimeout
      ∧ (generateWithGemini (fun _ => Outcome.err "QUOTA_EXCEEDED for this project")
          (fun _ => 0) (fun _ => 0) 3 1000 ⟨3, 0, true⟩ 18000).result
          = .error (breakerOpenMessage (resetTimeout - (18000 - 0)))
      ∧ mapChatError (breakerOpenMessage (resetTimeout - (18000 - 0))) = .generic 500)
    ∧ ((⟨0, 0, false⟩ : GenState).isOpen = false ∧ (1:Nat) ≤ 3
      ∧ includes "QUOTA_EXCEEDED for this project" "API_KEY_INVALID" = false
      ∧ includes "QUOTA_EXCEEDED for this project" "QUOTA_EXCEEDED" = true
      ∧ generateWithGemini (fun _ => Outcome.err "QUOTA_EXCEEDED for this project")
          (fun _ => 0) (fun _ => 0) 3 1000 ⟨0, 0, false⟩ 18000 =
          { result := .error "Gemini API quota exceeded. Please try again later.",
            state := ⟨0, 0, false⟩, backendCalls := 1, delays := [] }
      ∧ mapChatError "Gemini API quota exceeded. Please try again later."
          = .quotaExceeded 429) := by
  have h1 := (chat_error_mapping (fun _ => 0) (fun _ => 0)
    (fun _ => Outcome.err "QUOTA_EXCEEDED for this project") ⟨3, 0, true⟩ 18000 3 1000
    "QUOTA_EXCEEDED for this project").2.1 rfl (by decide)
  have h2 := (chat_error_mapping (fun _ => 0) (fun _ => 0)
    (fun _ => Outcome.err "QUOTA_EXCEEDED for this project") ⟨0, 0, false⟩ 18000 3 1000
    "QUOTA_EXCEEDED for this project").2.2 rfl (by omega) rfl (by decide) (by decide)
  exact ⟨⟨rfl, by decide, h1.1, h1.2⟩, ⟨rfl, by omega, by decide, by decide, h2.1, h2.2⟩⟩

lemma joinSep_cons_le (sep x : List Char) (xs : List (List Char)) :
    (joinSep sep (x :: xs)).length ≤ x.length + sep.length + (joinSep sep xs).length := by
  cases xs with
  | nil => simp [joinSep]
  | cons y ys =>
    simp only [joinSep, List.length_append]
    omega

lemma joinSep_length_le (sep : List Char) (xs : List (List Char)) (c : Nat)
    (h : ∀ x ∈ xs, x.length ≤ c) :
    (joinSep sep xs).length ≤ (c + sep.length) * xs.length := by
  induction xs with
  | nil => simp [joinSep]
  | cons x xs ih =>
    have hx := h x (List.mem_cons_self _ _)
    have hxs := ih (fun y hy => h y (List.mem_cons_of_mem _ hy))
    have hc := joinSep_cons_le sep x xs
    rw [List.length_cons, Nat.mul_succ]
    omega

lemma toString_digit_length : ∀ n : Nat, n ≤ 9 → ((toString n).toList).length = 1 := by
  decide

lemma docSections_length_le (docs : List DocRecord) :
    ∀ i, i + docs.length ≤ 9 →
    (joinSep ("\n---\n".toList) (docSections docs i)).length
      ≤ (docs.map (fun d => d.originalName.length)).sum + 2022 * docs.length := by
  induction docs with
  | nil =>
    intro i h
    simp [docSections, joinSep]
  | cons d ds ih =>
    intro i h
    have hcontent : (joinSep "\n\n".toList
        ((d.chunks.take 4).map (fun c => c.text.take 500))).length ≤ 2008 := by
      have hb := joinSep_length_le "\n\n".toList
        ((d.chunks.take 4).map (fun c => c.text.take 500)) 500
        (by
          intro x hx
          obtain ⟨cch, _, rfl⟩ := List.mem_map.mp hx
          exact List.length_take_le _ _)
      have hlen : ((d.chunks.take 4).map (fun c => c.text.take 500)).length ≤ 4 := by
        rw [List.length_map]
        exact List.length_take_le _ _
      have hsep : ("\n\n".toList).length = 2 := by decide
      rw [hsep] at hb
      have := Nat.mul_le_mul_left 502 hlen
      omega
    have hdig : ((toString (i + 1)).toList).length = 1 :=
      toString_digit_length (i + 1) (by simp only [List.length_cons] at h; omega)
    have hsec : (("Doc".toList ++ (toString (i + 1)).toList ++ " \"".toList
        ++ d.originalName ++ "\": ".toList
        ++ joinSep "\n\n".toList ((d.chunks.take 4).map (fun c => c.text.take 500)))).length
        ≤ d.originalName.length + 2017 := by
      simp only [List.length_append, hdig]
      have l1 : ("Doc".toList).length = 3 := by decide
      have l2 : (" \"".toList).length = 2 := by decide
      have l3 : ("\": ".toList).length = 3 := by decide
      omega
    have hrest := ih (i + 1) (by simp only [List.length_cons] at h; omega)
    have hjc := joinSep_cons_le ("\n---\n".toList)
      ("Doc".toList ++ (toString (i + 1)).toList ++ " \"".toList ++ d.originalName
        ++ "\": ".toList
        ++ joinSep "\n\n".toList ((d.chunks.take 4).map (fun c => c.text.take 500)))
      (docSections ds (i + 1))
    have hsep5 : ("\n---\n".toList).length = 5 := by decide
    simp only [docSections] at *
    simp only [List.map_cons, List.sum_cons, List.length_cons, Nat.mul_succ]
    omega

/-- Claim C8 amended: for at most 5 documents the question-mode prompt (first 4
chunks per document, each truncated to 500 characters, with index labels,
separators, the literal question and the concise-answer preamble) has length at
most 5 * 4 * 500 plus the question length, the document name lengths, and a
fixed scaffolding overhead of 200 characters. -/
theorem prompt_bound (question : List Char) (docs : List DocRecord)
    (h : docs.length ≤ 5) :
    (buildDocumentPrompt question docs).length
      ≤ 5 * 4 * 500 + question.length
        + (docs.map (fun d => d.originalName.length)).sum + 200 := by
  have hctx := docSections_length_le docs 0 (by omega)
  simp only [buildDocumentPrompt, List.length_append]
  have l1 : ("Based on these documents, answer the question concisely:\n\n".toList).length
      = 58 := by decide
  have l2 : ("\n\nQ: ".toList).length = 5 := by decide
  have l3 : ("\nA:".toList).length = 3 := by decide
  have hmul : 2022 * docs.length ≤ 2022 * 5 := Nat.mul_le_mul_left _ h
  omega

/-- Claim C8 counterexample: with a single document contributing no chunk text at
all, a 100000-character question already makes the prompt longer than
5 * 4 * 500 + 10000, so no fixed overhead bounds the prompt length. -/
theorem prompt_bound_counterexample :
    5 * 4 * 500 + 10000 < (buildDocumentPrompt (List.replicate 100000 'a')
      [{ originalName := "d".toList, chunks := [] }]).length := by
  simp only [buildDocumentPrompt, List.length_append, List.length_replicate]
  omega

theorem prompt_bound_witness :
    (([sampleDoc] : List DocRecord).length ≤ 5)
    ∧ (buildDocumentPrompt "hi".toList [sampleDoc]).length
      ≤ 5 * 4 * 500 + ("hi".toList).length
        + (([sampleDoc] : List DocRecord).map (fun d => d.originalName.length)).sum + 200 := by
  refine ⟨by simp, ?_⟩
  exact prompt_bound "hi".toList [sampleDoc] (by simp)

/-- Claim C4 counterexample: when the primary generation attempt fails with an
overload error, the chat flow still sends exactly one prompt, the full document
prompt; buildMinimalPrompt's output is never sent, refuting the claim that the
minimal fallback prompt is used after budget failures. -/
theorem minimal_fallback_counterexample :
    (chatPrompts qSmall [docSmall] (fun _ => .error "The model is overloaded")).2
      = [buildDocumentPrompt qSmall [docSmall]]
    ∧ (chatPrompts qSmall [docSmall] (fun _ => .error "The model is overloaded")).1
      = .error (ChatFailure.serviceOverloaded 503 30)
    ∧ buildMinimalPrompt qSmall [docSmall]
      ∉ (chatPrompts qSmall [docSmall] (fun _ => .error "The model is overloaded")).2 := by
  refine ⟨rfl, by decide, ?_⟩
  intro hmem
  rw [show (chatPrompts qSmall [docSmall] (fun _ => .error "The model is overloaded")).2
    = [buildDocumentPrompt qSmall [docSmall]] from rfl] at hmem
  have h2 := List.mem_singleton.mp hmem
  exact absurd h2 (by decide)

/-- Claim C4 amended: buildMinimalPrompt (each document's first chunk truncated to
200 characters plus the plain question) is defined but never invoked: for every
question, document list and generation behaviour the chat flow sends exactly one
prompt, the full document prompt. -/
theorem minimal_fallback_unused (question : List Char) (docs : List DocRecord)
    (gen : List Char → Except String String) :
    (chatPrompts question docs gen).2 = [buildDocumentPrompt question docs] := by
  cases h : gen (buildDocumentPrompt question docs) <;> simp [chatPrompts, h]

lemma countActive_append_active (s : List StoredDoc) (doc : StoredDoc)
    (h : doc.isActive = true) :
    countActive (s ++ [doc]) = countActive s + 1 := by
  simp [countActive, List.filter_append, h]

lemma countActive_pos (s : List StoredDoc) (d : StoredDoc) (hd : d ∈ s)
    (hact : d.isActive = true) : 1 ≤ countActive s := by
  have : d ∈ s.filter (fun e => e.isActive) := List.mem_filter.mpr ⟨hd, by simp [hact]⟩
  have := List.length_pos.mpr (List.ne_nil_of_mem this)
  simpa [countActive] using this

lemma countActive_cons (e : StoredDoc) (s : List StoredDoc) :
    countActive (e :: s) = (if e.isActive = true then 1 else 0) + countActive s := by
  simp only [countActive, List.filter_cons]
  split_ifs with h1
  · simp only [List.length_cons]
    omega
  · omega

lemma countActive_map_deactivate (store : List StoredDoc) (docId : Nat)
    (hnodup : (store.map StoredDoc.id).Nodup) (d : StoredDoc) (hd : d ∈ store)
    (hid : d.id = docId) (hact : d.isActive = true) :
    countActive (store.map (fun e => if e.id == docId then { e with isActive := false } else e))
      = countActive store - 1 := by
  induction store with
  | nil => cases hd
  | cons e es ih =>
    simp only [List.map_cons, List.nodup_cons] at hnodup
    rcases List.mem_cons.mp hd with heq | hdes
    · -- head is the deleted document
      have hid2 : e.id = docId := by rw [← heq]; exact hid
      have hact2 : e.isActive = true := by rw [← heq]; exact hact
      have hhead : (if e.id == docId then { e with isActive := false } else e)
          = { e with isActive := false } := by
        simp [hid2]
      have htail : es.map (fun x => if x.id == docId then { x with isActive := false } else x)
          = es := by
        conv_rhs => rw [← List.map_id es]
        apply List.map_congr_left
        intro x hx
        have hxid : x.id ≠ docId := by
          intro hcontra
          have hmem : x.id ∈ es.map StoredDoc.id := List.mem_map_of_mem StoredDoc.id hx
          rw [hcontra, ← hid2] at hmem
          exact hnodup.1 hmem
        simp [hxid, id]
      rw [List.map_cons, hhead, htail, countActive_cons, countActive_cons]
      simp only [hact2, if_true]
      norm_num
    · -- deleted document is in the tail
      have heid : e.id ≠ docId := by
        intro hcontra
        refine hnodup.1 ?_
        rw [hcontra, ← hid]
        exact List.mem_map_of_mem StoredDoc.id hdes
      have hhead : (if e.id == docId then { e with isActive := false } else e) = e := by
        simp [heid]
      have htail := ih hnodup.2 hdes
      have hpos := countActive_pos es d hdes hact
      rw [List.map_cons, hhead, countActive_cons, countActive_cons, htail]
      split_ifs <;> omega

/-- Claim C5: an upload by an owner with at least 5 active documents fails with a
DocumentLimitReached payload reporting the current count and the limit 5,
performs no extraction or chunking and leaves the store unchanged; after
soft-deleting one active document the active count drops by one, and from
exactly 5 documents one further upload succeeds while the next one fails again. -/
theorem upload_limit_enforced (store : List StoredDoc) (newId nid2 : Nat)
    (text t2 : List Char) (fn fn2 : String) (d : StoredDoc)
    (hnodup : (store.map StoredDoc.id).Nodup) (hd : d ∈ store) (hact : d.isActive = true)
    (hcount : 5 ≤ countActive store) :
    uploadFile store newId text fn =
      { result := .limitReached 5 (countActive store), store := store, chunkCalls := 0 }
    ∧ ∃ store2, deleteFile store d.id = some store2
        ∧ countActive store2 = countActive store - 1
        ∧ (countActive store = 5 →
            (uploadFile store2 newId text fn).result
              = .created { id := newId, isActive := true, chunks := chunkText text fn }
            ∧ (uploadFile store2 newId text fn).chunkCalls = 1
            ∧ (uploadFile ((uploadFile store2 newId text fn).store) nid2 t2 fn2).result
              = .limitReached 5 5) := by
  have hlimit : uploadFile store newId text fn =
      { result := .limitReached 5 (countActive store), store := store, chunkCalls := 0 } := by
    rw [uploadFile]
    rw [if_pos (by simp only [MAX_DOCUMENTS_PER_USER]; omega)]
    rfl
  refine ⟨hlimit, ?_⟩
  have hany : store.any (fun e => e.id == d.id && e.isActive) = true := by
    rw [List.any_eq_true]
    exact ⟨d, hd, by simp [hact]⟩
  have hdel : deleteFile store d.id =
      some (store.map (fun e => if e.id == d.id then { e with isActive := false } else e)) := by
    rw [deleteFile, if_pos hany]
  refine ⟨_, hdel, ?_, ?_⟩
  · exact countActive_map_deactivate store d.id hnodup d hd rfl hact
  · intro h5
    have hc2 : countActive (store.map
        (fun e => if e.id == d.id then { e with isActive := false } else e)) = 4 := by
      rw [countActive_map_deactivate store d.id hnodup d hd rfl hact, h5]
    have hup2 : uploadFile (store.map
        (fun e => if e.id == d.id then { e with isActive := false } else e)) newId text fn =
        { result := .created { id := newId, isActive := true, chunks := chunkText text fn },
          store := (store.map
            (fun e => if e.id == d.id then { e with isActive := false } else e))
            ++ [{ id := newId, isActive := true, chunks := chunkText text fn }],
          chunkCalls := 1 } := by
      rw [uploadFile]
      rw [if_neg (by simp only [MAX_DOCUMENTS_PER_USER, hc2]; omega)]
    refine ⟨by rw [hup2], by rw [hup2], ?_⟩
    rw [hup2]
    have hc3 : countActive ((store.map
        (fun e => if e.id == d.id then { e with isActive := false } else e))
        ++ [{ id := newId, isActive := true, chunks := chunkText text fn }]) = 5 := by
      rw [countActive_append_active _ _ rfl, hc2]
    rw [uploadFile]
    rw [if_pos (by simp only [MAX_DOCUMENTS_PER_USER, hc3]; omega)]
    rw [hc3]
    rfl

theorem upload_limit_enforced_witness :
    ((sampleStore.map StoredDoc.id).Nodup ∧ 5 ≤ countActive sampleStore)
    ∧ uploadFile sampleStore 6 "x".toList "f.txt" =
        { result := .limitReached 5 (countActive sampleStore), store := sampleStore,
          chunkCalls := 0 }
    ∧ deleteFile sampleStore 1 = some sampleStore2
    ∧ countActive sampleStore2 = countActive sampleStore - 1
    ∧ (uploadFile sampleStore2 6 "x".toList "f.txt").result
        = .created { id := 6, isActive := true, chunks := chunkText "x".toList "f.txt" }
    ∧ (uploadFile sampleStore2 6 "x".toList "f.txt").chunkCalls = 1
    ∧ (uploadFile ((uploadFile sampleStore2 6 "x".toList "f.txt").store) 7 "y".toList
        "g.txt").result = .limitReached 5 5 := by
  have h := upload_limit_enforced sampleStore 6 7 "x".toList "y".toList "f.txt" "g.txt"
    (⟨1, true, []⟩ : StoredDoc) (by decide) (by decide) rfl (by decide)
  obtain ⟨h1, store2, hdel, hc, himp⟩ := h
  have hdel1 : deleteFile sampleStore 1 = some store2 := hdel
  have hdel2 : deleteFile sampleStore 1 = some sampleStore2 := by decide
  have hs2 : store2 = sampleStore2 := by
    rw [hdel1] at hdel2
    exact (Option.some_inj.mp hdel2)
  subst hs2
  obtain ⟨ha, hb, hcc⟩ := himp (by decide)
  exact ⟨⟨by decide, by decide⟩, h1, hdel2, hc, ha, hb, hcc⟩
